import Mathlib

/-!
Verification of the azure-devops-mcp-server tool handlers.

The definitions below are a shallow embedding of the TypeScript source:
  - the chunked-upload sequencer of `upload_work_item_attachment`
    (src/src/index.ts, lines 558-667),
  - the WIQL condition builder of `search_work_items`
    (src/unnamed/part_000, lines 596-643),
  - the `get_work_items_batch` ids validation (part_000, lines 938-961),
  - the `batch_update_work_items` operation mapping (part_000, lines 977-1051),
  - the memoized `getProjectName` (src/src/index.ts, lines 65-86),
  - the `update_work_item` AssignedTo email check (part_000, lines 561-594).

JavaScript numbers are modelled as `Int` (all values involved are integers in
the safe range), byte buffers as `List Nat`, and the unbounded `for` loop of
the chunked upload as a fuel-indexed function returning `none` when the fuel
is exhausted before the loop condition fails.
-/

namespace AzdoMcp

/-- A single quote character (written via its code point). -/
def squote : Char := Char.ofNat 39

/-- The one-character string holding a single quote. -/
def squoteS : String := String.singleton squote

/-! ## Chunked upload sequencer (src/src/index.ts, upload_work_item_attachment) -/

/-- One chunk request of the chunked upload: its start and end byte indices,
the bytes it carries, and its Content-Range header value. -/
structure ChunkRequest where
  start : Int
  endIdx : Int
  bytes : List Nat
  contentRange : String
deriving Repr, DecidableEq

/-- The Content-Range header built by the chunk loop:
`bytes ${start}-${end}/${fileSize}`. -/
def contentRangeHeader (start endIdx total : Int) : String :=
  "bytes " ++ toString start ++ "-" ++ toString endIdx ++ "/" ++ toString total

/-- `fileBuffer.slice(start, stop)` for the in-range indices used by the chunk
loop (`0 ≤ start ≤ stop ≤ length`). -/
def bufSlice (buf : List Nat) (start stop : Int) : List Nat :=
  (buf.take stop.toNat).drop start.toNat

/-- The chunk loop
`for (let start = 0; start < fileSize; start += chunkSize) { ... }`
of `upload_work_item_attachment`, as a fuel-indexed function: each loop
iteration consumes one unit of fuel and emits one `ChunkRequest` with
`end = Math.min(start + chunkSize, fileSize) - 1`,
`chunk = fileBuffer.slice(start, end + 1)` and the Content-Range header;
`none` means the fuel ran out while the loop condition `start < fileSize`
still held. -/
def chunkLoopAux (fileBuffer : List Nat) (chunkSize : Int) :
    Nat → Int → Option (List ChunkRequest)
  | fuel, start =>
    let fileSize : Int := fileBuffer.length
    if start < fileSize then
      match fuel with
      | 0 => none
      | Nat.succ f =>
        let endIdx := min (start + chunkSize) fileSize - 1
        Option.map
          (fun rest =>
            ⟨start, endIdx, bufSlice fileBuffer start (endIdx + 1),
              contentRangeHeader start endIdx fileSize⟩ :: rest)
          (chunkLoopAux fileBuffer chunkSize f (start + chunkSize))
    else
      some []

/-- An outbound request of the attachment-upload phase: either the single
simple upload carrying the whole buffer, the chunked-upload initiate request
(empty body), or one chunk request. -/
inductive UploadRequest where
  | simple (body : List Nat)
  | initiate
  | chunk (bytes : List Nat) (contentRange : String)
deriving Repr, DecidableEq

/-- The upload phase of `upload_work_item_attachment`
(src/src/index.ts, lines 584-642): if `fileSize <= chunkThreshold` issue one
simple upload request with the whole buffer, otherwise issue the initiate
request followed by the requests of the chunk loop. -/
def uploadAttachmentRequests (fileBuffer : List Nat)
    (chunkSize chunkThreshold : Int) (fuel : Nat) :
    Option (List UploadRequest) :=
  let fileSize : Int := fileBuffer.length
  if fileSize ≤ chunkThreshold then
    some [UploadRequest.simple fileBuffer]
  else
    Option.map
      (fun chunks =>
        UploadRequest.initiate ::
          chunks.map (fun c => UploadRequest.chunk c.bytes c.contentRange))
      (chunkLoopAux fileBuffer chunkSize fuel 0)

/-- The partition property claimed for the chunked-upload path: for some fuel
the loop terminates with a chunk list that the sequencer issues after the
initiate request, whose byte payloads concatenate back to the whole buffer,
issued in ascending order starting at 0 with each chunk starting right after
the previous one's end, each chunk at most `chunkSize` bytes, each carrying
the `bytes <start>-<end>/<total>` header, and the last chunk ending at
`length - 1`. -/
def ChunkedUploadCorrect (fileBuffer : List Nat)
    (chunkSize chunkThreshold : Int) : Prop :=
  ∃ fuel chunks,
    chunkLoopAux fileBuffer chunkSize fuel 0 = some chunks ∧
    uploadAttachmentRequests fileBuffer chunkSize chunkThreshold fuel =
      some (UploadRequest.initiate ::
        chunks.map (fun c => UploadRequest.chunk c.bytes c.contentRange)) ∧
    (chunks.map ChunkRequest.bytes).flatten = fileBuffer ∧
    chunks.head?.map ChunkRequest.start = some 0 ∧
    List.Chain' (fun a b => b.start = a.endIdx + 1) chunks ∧
    (∀ c ∈ chunks, 0 ≤ c.start ∧ c.start ≤ c.endIdx ∧
      c.endIdx + 1 - c.start ≤ chunkSize ∧
      c.contentRange = contentRangeHeader c.start c.endIdx fileBuffer.length) ∧
    chunks.getLast?.map ChunkRequest.endIdx = some ((fileBuffer.length : Int) - 1)

/-- The small-file property: the sequencer issues exactly the single simple
upload request carrying the whole buffer — in particular one request, no
initiate request and no chunk request. -/
def SingleUploadOnly (fileBuffer : List Nat)
    (chunkSize chunkThreshold : Int) (fuel : Nat) : Prop :=
  uploadAttachmentRequests fileBuffer chunkSize chunkThreshold fuel =
    some [UploadRequest.simple fileBuffer] ∧
  ∀ reqs, uploadAttachmentRequests fileBuffer chunkSize chunkThreshold fuel =
      some reqs →
    reqs.length = 1 ∧ UploadRequest.initiate ∉ reqs ∧
      ∀ b r, UploadRequest.chunk b r ∉ reqs

/-- Divergence of the chunk loop: no amount of fuel makes the loop (hence the
sequencer, on the chunked path) finish. -/
def ChunkLoopDiverges (fileBuffer : List Nat)
    (chunkSize chunkThreshold : Int) : Prop :=
  ∀ fuel, chunkLoopAux fileBuffer chunkSize fuel 0 = none ∧
    uploadAttachmentRequests fileBuffer chunkSize chunkThreshold fuel = none

/-- Termination of the chunk loop in exactly `⌈length / chunkSize⌉`
iterations: that much fuel suffices and the loop emits one chunk per
iteration. -/
def ChunkLoopTerminates (fileBuffer : List Nat) (chunkSize : Int) : Prop :=
  ∃ chunks,
    chunkLoopAux fileBuffer chunkSize
      ((((fileBuffer.length : Int) + chunkSize - 1) / chunkSize).toNat) 0 =
      some chunks ∧
    (chunks.length : Int) =
      ((fileBuffer.length : Int) + chunkSize - 1) / chunkSize

/-! ## Base64 decoding (Node `Buffer.from(s, 'base64')`) and the upload
handler entry (src/src/index.ts, lines 558-612) -/

/-- The Base64 alphabet index of a character: `A-Z`, `a-z`, `0-9`, `+`, `/`
(plus the URL-safe `-` and `_` that Node also accepts), `none` for any other
character. -/
def base64Index (c : Char) : Option Nat :=
  if 65 ≤ c.toNat ∧ c.toNat ≤ 90 then some (c.toNat - 65)
  else if 97 ≤ c.toNat ∧ c.toNat ≤ 122 then some (c.toNat - 97 + 26)
  else if 48 ≤ c.toNat ∧ c.toNat ≤ 57 then some (c.toNat - 48 + 52)
  else if c.toNat = 43 ∨ c.toNat = 45 then some 62
  else if c.toNat = 47 ∨ c.toNat = 95 then some 63
  else none

/-- Decode a stream of 6-bit Base64 digits into bytes, four digits to three
bytes, a trailing pair or triple to one or two bytes, a lone trailing digit
dropped. -/
def base64DecodeGroups : List Nat → List Nat
  | a :: b :: c :: d :: rest =>
    (a * 4 + b / 16) :: ((b % 16) * 16 + c / 4) :: ((c % 4) * 64 + d) ::
      base64DecodeGroups rest
  | [a, b] => [a * 4 + b / 16]
  | [a, b, c] => [a * 4 + b / 16, (b % 16) * 16 + c / 4]
  | _ => []

/-- Model of Node.js `Buffer.from(s, 'base64')`, the decode step of
`upload_work_item_attachment` (src/src/index.ts, line 573): a forgiving
decoder that skips every character outside the Base64 alphabet (whitespace,
`=` padding, arbitrary junk) and decodes the rest. The load-bearing fact is
totality: the Node decoder never throws on a string input, so the `catch`
branch at lines 574-576 that would raise the invalid-argument error can
never run. -/
def nodeBase64Decode (s : String) : List Nat :=
  base64DecodeGroups (s.data.filterMap base64Index)

/-- An error raised by a modelled handler before any network request. -/
inductive HandlerError where
  | invalidParams (message : String)
  | fuelExhausted
deriving Repr, DecidableEq

/-- `upload_work_item_attachment` up to the upload phase
(src/src/index.ts, lines 558-612): the required-argument check, the Base64
decode — total, per `nodeBase64Decode` — and the threshold branch. -/
def uploadAttachmentHandler (workItemId : Option Int)
    (fileName fileContentBase64 : String)
    (chunkSize chunkThreshold : Int) (fuel : Nat) :
    Except HandlerError (List UploadRequest) :=
  if workItemId = none ∨ fileName = "" ∨ fileContentBase64 = "" then
    Except.error (HandlerError.invalidParams
      "缺少必要的參數: workItemId (數字), fileName (字串), fileContentBase64 (字串)")
  else
    let fileBuffer := nodeBase64Decode fileContentBase64
    match uploadAttachmentRequests fileBuffer chunkSize chunkThreshold
        fuel with
    | some reqs => Except.ok reqs
    | none => Except.error HandlerError.fuelExhausted

/-! ## getProjectName memoization (src/src/index.ts, lines 65-86) -/

/-- Truthiness of an optional JS string: `undefined` and the empty string
are falsy. -/
def strFalsy : Option String → Bool
  | none => true
  | some s => s = ""

/-- A project of the projects-list response, keeping the field the source
reads: its possibly missing `name`. -/
structure ProjInfo where
  name : Option String
deriving Repr, DecidableEq

/-- One call of `getProjectName` with the module-level memo `projectName`
made explicit. `remote` is what `response.data.value` would be (`none`
models a response without the array). Returns the call's outcome, the memo
after the call, and how many project-list fetches the call performed. -/
def getProjectNameOnce (remote : Option (List ProjInfo))
    (cached : Option String) :
    Except String String × Option String × Nat :=
  if strFalsy cached then
    match remote with
    | none =>
      (Except.error
        "Could not find any projects in the Azure DevOps organization.",
        cached, 1)
    | some projects =>
      match projects.head? with
      | none =>
        (Except.error
          "Could not find any projects in the Azure DevOps organization.",
          cached, 1)
      | some p =>
        if strFalsy p.name then
          (Except.error
            "Could not find any projects in the Azure DevOps organization.",
            cached, 1)
        else
          (Except.ok (p.name.getD ""), some (p.name.getD ""), 1)
  else
    (Except.ok (cached.getD ""), cached, 0)

/-! ## search_work_items condition builder (src/unnamed/part_000,
lines 596-643) -/

/-- JS `\s` (the character class of the regexes and of `String.trim`). -/
def isJsSpace (c : Char) : Bool :=
  decide (c.toNat = 9 ∨ c.toNat = 10 ∨ c.toNat = 11 ∨ c.toNat = 12 ∨
    c.toNat = 13 ∨ c.toNat = 32 ∨ c.toNat = 160 ∨ c.toNat = 5760 ∨
    (8192 ≤ c.toNat ∧ c.toNat ≤ 8202) ∨ c.toNat = 8232 ∨ c.toNat = 8233 ∨
    c.toNat = 8239 ∨ c.toNat = 8287 ∨ c.toNat = 12288 ∨ c.toNat = 65279)

/-- JS `String.prototype.trim`: strip leading and trailing whitespace. -/
def jsTrim (s : String) : String :=
  String.mk (((s.data.dropWhile isJsSpace).reverse.dropWhile
    isJsSpace).reverse)

/-- `value.replace(/'/g, "''")`: double every embedded single quote. -/
def escapeQuotes (s : String) : String :=
  String.mk (s.data.foldr
    (fun c acc => if c = squote then squote :: squote :: acc else c :: acc)
    [])

/-- Wrap a value in the single quotes of the WIQL templates. -/
def quoteWrap (s : String) : String := squoteS ++ s ++ squoteS

/-- The optional filter arguments of `search_work_items`
(part_000, lines 597-604); `none` is a JS `undefined`. -/
structure SearchArgs where
  query : Option String := none
  projectName : Option String := none
  workItemType : Option String := none
  state : Option String := none
  assignedTo : Option String := none
  tags : Option String := none
  createdAfter : Option String := none
  updatedAfter : Option String := none
deriving Repr, DecidableEq

/-- A `if (value) conditions.push(template(value))` step: one condition when
the optional value is truthy, none otherwise. -/
def optCondition (o : Option String) (f : String → String) : List String :=
  match o with
  | some v => if v = "" then [] else [f v]
  | none => []

/-- `tags.split(';').map(t => t.trim()).filter(t => t)` (line 624). -/
def parseTags (tags : String) : List String :=
  ((tags.splitOn ";").map jsTrim).filter (fun t => t ≠ "")

/-- One tag clause `[System.Tags] CONTAINS '<escaped tag>'` (line 626). -/
def tagCondition (tag : String) : String :=
  "[System.Tags] CONTAINS " ++ quoteWrap (escapeQuotes tag)

/-- `/^\d+$/.test(queryText)` (line 640). -/
def isNumericId (s : String) : Bool :=
  decide (s ≠ "") && s.data.all Char.isDigit

/-- The free-text clause (line 642): title and description matched against
the quote-escaped text, plus a raw numeric-ID alternative when the text is
all digits. -/
def queryCondition (queryText : String) : String :=
  "([System.Title] CONTAINS " ++ quoteWrap (escapeQuotes queryText) ++
    " " ++
    (if isNumericId queryText then "OR [System.Id] = " ++ queryText
      else "") ++
    " OR [System.Description] CONTAINS " ++
    quoteWrap (escapeQuotes queryText) ++ ")"

/-- The `conditions` array of `search_work_items` (part_000, lines 609-643),
in source order: the project scope, then the optional work-item type, state,
assignee, tag disjunction, created-after and updated-after (both dates
interpolated verbatim, without `escapeQuotes`), and the free-text clause. -/
def buildConditions (a : SearchArgs) (defaultProject : String) :
    List String :=
  ["[System.TeamProject] = " ++
      quoteWrap (escapeQuotes (a.projectName.getD defaultProject))]
  ++ optCondition a.workItemType
      (fun t => "[System.WorkItemType] = " ++ quoteWrap (escapeQuotes t))
  ++ optCondition a.state
      (fun s => "[System.State] = " ++ quoteWrap (escapeQuotes s))
  ++ optCondition a.assignedTo
      (fun s => "[System.AssignedTo] = " ++ quoteWrap (escapeQuotes s))
  ++ (match a.tags with
      | some tg =>
        if tg = "" then []
        else if (parseTags tg).length > 0 then
          ["(" ++ String.intercalate " OR " ((parseTags tg).map tagCondition)
            ++ ")"]
        else []
      | none => [])
  ++ optCondition a.createdAfter
      (fun d => "[System.CreatedDate] >= " ++ quoteWrap d)
  ++ optCondition a.updatedAfter
      (fun d => "[System.ChangedDate] >= " ++ quoteWrap d)
  ++ optCondition a.query queryCondition

/-- The quote-escaping discipline that actually holds of `buildConditions`:
each supplied non-date filter contributes its clause built from the
quote-doubled value, while the two date filters contribute their clause
built from the raw value. -/
def EscapingAmended (a : SearchArgs) (d : String) : Prop :=
  ("[System.TeamProject] = " ++
      quoteWrap (escapeQuotes (a.projectName.getD d)))
    ∈ buildConditions a d ∧
  (∀ t, a.workItemType = some t → t ≠ "" →
    ("[System.WorkItemType] = " ++ quoteWrap (escapeQuotes t))
      ∈ buildConditions a d) ∧
  (∀ s, a.state = some s → s ≠ "" →
    ("[System.State] = " ++ quoteWrap (escapeQuotes s))
      ∈ buildConditions a d) ∧
  (∀ s, a.assignedTo = some s → s ≠ "" →
    ("[System.AssignedTo] = " ++ quoteWrap (escapeQuotes s))
      ∈ buildConditions a d) ∧
  (∀ tg, a.tags = some tg → tg ≠ "" → (parseTags tg).length > 0 →
    ("(" ++ String.intercalate " OR " ((parseTags tg).map tagCondition)
        ++ ")")
      ∈ buildConditions a d) ∧
  (∀ v, a.createdAfter = some v → v ≠ "" →
    ("[System.CreatedDate] >= " ++ quoteWrap v) ∈ buildConditions a d) ∧
  (∀ v, a.updatedAfter = some v → v ≠ "" →
    ("[System.ChangedDate] >= " ++ quoteWrap v) ∈ buildConditions a d) ∧
  (∀ q, a.query = some q → q ≠ "" → queryCondition q ∈ buildConditions a d)

/-- The tag-disjunction property: with at least one non-empty trimmed tag,
the conditions contain one parenthesized disjunction with exactly one
`CONTAINS` clause per tag; with only empty segments, no tag predicate is
added at all. -/
def TagDisjunction (a : SearchArgs) (d tg : String) : Prop :=
  ((parseTags tg).length ≥ 1 →
    ("(" ++ String.intercalate " OR " ((parseTags tg).map tagCondition)
        ++ ")")
      ∈ buildConditions a d ∧
    ((parseTags tg).map tagCondition).length = (parseTags tg).length) ∧
  (parseTags tg = [] →
    buildConditions a d = buildConditions { a with tags := none } d)

/-! ## update_work_item AssignedTo check (part_000, lines 561-594) -/

/-- A character admissible in the `[^@\s]` classes of the AssignedTo
pattern: anything but `@` and JS whitespace. -/
def notAtOrSpace (c : Char) : Bool :=
  decide (c.toNat ≠ 64) && !(isJsSpace c)

/-- `/^[^@\s]+@[^@\s]+\.[^@\s]+$/.test(s)` (part_000, line 571). Because
both classes exclude `@`, a match must split the string at its unique `@`:
a non-empty `@`/whitespace-free part before it, and after it a non-empty
`@`/whitespace-free part containing a dot with at least one character on
each side. -/
def emailRegexTest (s : String) : Bool :=
  let before := s.data.takeWhile (fun c => decide (c.toNat ≠ 64))
  match s.data.drop before.length with
  | [] => false
  | _ :: after =>
    decide (before ≠ []) && before.all notAtOrSpace &&
      decide (after ≠ []) && after.all notAtOrSpace &&
      ((after.drop 1).dropLast.contains (Char.ofNat 46))

/-- One entry of a JSON-Patch document; field values are modelled as
strings. -/
structure PatchOp where
  op : String
  path : String
  value : String
deriving Repr, DecidableEq

/-- `update_work_item` (part_000, lines 561-594) up to the outbound PATCH:
the argument check, the AssignedTo email-format check, then the patch
document (one `replace` per update, plus a `System.History` entry when a
comment is supplied). An `Except.error` is raised before any network
request. -/
def updateWorkItemHandler (id : Option Int)
    (updates : List (String × String)) (comment : Option String) :
    Except String (List PatchOp) :=
  if id = none ∨ updates.length = 0 then
    Except.error "缺少或無效的參數: id (數字) 和 updates (非空物件)"
  else if (updates.lookup "System.AssignedTo").getD "" ≠ "" ∧
      emailRegexTest ((updates.lookup "System.AssignedTo").getD "")
        = false then
    Except.error "System.AssignedTo 必須為有效的 email 格式。"
  else
    Except.ok
      ((updates.map
          (fun kv => PatchOp.mk "replace" ("/fields/" ++ kv.1) kv.2)) ++
        (match comment with
          | some c => [PatchOp.mk "add" "/fields/System.History" c]
          | none => []))

/-! ## get_work_items_batch ids validation (part_000, lines 938-961) -/

/-- The composite request body of `get_work_items_batch`, as built once
validation passed. -/
structure BatchGetRequest where
  ids : List Int
  fields : Option (List String)
  asOf : Option String
  expand : Option String
deriving Repr, DecidableEq

/-- `get_work_items_batch` (part_000, lines 938-961) up to the network call:
a non-array (`none`) or empty `ids` is rejected, a list longer than 200
entries is rejected, anything else yields the request body. -/
def getWorkItemsBatchHandler (ids : Option (List Int))
    (fields : Option (List String)) (asOf expand : Option String) :
    Except String BatchGetRequest :=
  match ids with
  | none => Except.error "缺少或無效的參數: ids (必須是非空數組)"
  | some l =>
    if l.length = 0 then
      Except.error "缺少或無效的參數: ids (必須是非空數組)"
    else if l.length > 200 then
      Except.error "ids 數組長度不能超過 200"
    else
      Except.ok
        ⟨l, fields, if strFalsy asOf then none else asOf,
          if strFalsy expand then none else expand⟩

/-- The boundary behaviour claimed for the `ids` validation. -/
def IdsBoundary (l : List Int) (fields : Option (List String))
    (asOf expand : Option String) : Prop :=
  (l.length = 200 →
    ∃ req, getWorkItemsBatchHandler (some l) fields asOf expand =
      Except.ok req ∧ req.ids = l) ∧
  (l.length ≥ 201 →
    getWorkItemsBatchHandler (some l) fields asOf expand =
      Except.error "ids 數組長度不能超過 200") ∧
  getWorkItemsBatchHandler (some []) fields asOf expand =
    Except.error "缺少或無效的參數: ids (必須是非空數組)" ∧
  getWorkItemsBatchHandler none fields asOf expand =
    Except.error "缺少或無效的參數: ids (必須是非空數組)"

/-! ## batch_update_work_items operation mapping (part_000,
lines 977-1051) -/

/-- Hexadecimal digit character (upper case, as `encodeURIComponent`
emits). -/
def hexDigit (n : Nat) : Char :=
  if n < 10 then Char.ofNat (48 + n) else Char.ofNat (55 + n)

/-- UTF-8 bytes of a code point. -/
def utf8Bytes (n : Nat) : List Nat :=
  if n < 128 then [n]
  else if n < 2048 then [192 + n / 64, 128 + n % 64]
  else if n < 65536 then
    [224 + n / 4096, 128 + n / 64 % 64, 128 + n % 64]
  else
    [240 + n / 262144, 128 + n / 4096 % 64, 128 + n / 64 % 64,
      128 + n % 64]

/-- The characters `encodeURIComponent` leaves unescaped:
`A-Z a-z 0-9 - _ . ! ~ * ' ( )`. -/
def uriUnreserved (c : Char) : Bool :=
  (decide (65 ≤ c.toNat) && decide (c.toNat ≤ 90)) ||
  (decide (97 ≤ c.toNat) && decide (c.toNat ≤ 122)) ||
  (decide (48 ≤ c.toNat) && decide (c.toNat ≤ 57)) ||
  decide (c.toNat = 45) || decide (c.toNat = 95) ||
  decide (c.toNat = 46) || decide (c.toNat = 33) ||
  decide (c.toNat = 126) || decide (c.toNat = 42) ||
  decide (c.toNat = 39) || decide (c.toNat = 40) || decide (c.toNat = 41)

/-- JS `encodeURIComponent`: percent-encode the UTF-8 bytes of every
character outside the unreserved set. -/
def encodeURIComponent (s : String) : String :=
  String.mk (s.data.foldr
    (fun c acc =>
      if uriUnreserved c then c :: acc
      else (utf8Bytes c.toNat).foldr
        (fun b acc2 =>
          Char.ofNat 37 :: hexDigit (b / 16) :: hexDigit (b % 16) :: acc2)
        acc)
    [])

/-- One entry of the `operations` argument of `batch_update_work_items`;
map values are modelled as strings, `none` is a JS `undefined`. -/
structure BatchOp where
  method : Option String := none
  workItemId : Option Int := none
  workItemType : Option String := none
  projectName : Option String := none
  updates : Option (List (String × String)) := none
  fields : Option (List (String × String)) := none
deriving Repr, DecidableEq

/-- One inner request of the composite `$batch` payload (its constant
`Content-Type: application/json-patch+json` header is left implicit). -/
structure BatchEntry where
  method : String
  uri : String
  body : List PatchOp
deriving Repr, DecidableEq

/-- Falsiness of an optional JS number: `undefined` and `0`. -/
def numFalsy : Option Int → Bool
  | none => true
  | some n => n = 0

/-- How JS renders the `method` value inside the default-branch template
string: `undefined` when the field is absent. -/
def methodText : Option String → String
  | none => "undefined"
  | some s => s

/-- The mapping of one operation at `index` (part_000, lines 987-1043): the
`switch` over `method` with the per-method required-field checks, each
failure raising the positional `操作 <index>: ...` error. -/
def mapBatchOp (defaultProject : String) (idx : Nat) (op : BatchOp) :
    Except String BatchEntry :=
  let targetProject := op.projectName.getD defaultProject
  if op.method = some "PATCH" then
    if numFalsy op.workItemId then
      Except.error ("操作 " ++ toString idx ++ ": PATCH 方法需要 workItemId")
    else
      Except.ok
        ⟨"PATCH",
          "/" ++ encodeURIComponent targetProject ++
            "/_apis/wit/workitems/" ++ toString (op.workItemId.getD 0) ++
            "?api-version=7.1",
          (op.updates.getD []).map
            (fun kv => PatchOp.mk "replace" ("/fields/" ++ kv.1) kv.2)⟩
  else if op.method = some "POST" then
    if strFalsy op.workItemType then
      Except.error ("操作 " ++ toString idx ++ ": POST 方法需要 workItemType")
    else
      Except.ok
        ⟨"POST",
          "/" ++ encodeURIComponent targetProject ++
            "/_apis/wit/workitems/$" ++
            encodeURIComponent (op.workItemType.getD "") ++
            "?api-version=7.1",
          (op.fields.getD []).map
            (fun kv => PatchOp.mk "add" ("/fields/" ++ kv.1) kv.2)⟩
  else if op.method = some "DELETE" then
    if numFalsy op.workItemId then
      Except.error ("操作 " ++ toString idx ++ ": DELETE 方法需要 workItemId")
    else
      Except.ok
        ⟨"DELETE",
          "/" ++ encodeURIComponent targetProject ++
            "/_apis/wit/workitems/" ++ toString (op.workItemId.getD 0) ++
            "?api-version=7.1",
          []⟩
  else
    Except.error ("操作 " ++ toString idx ++ ": 不支援的方法 " ++
      methodText op.method)

/-- `operations.map((op, index) => ...)` with JS exception semantics: the
entries are processed left to right and the first throwing entry aborts the
whole construction. -/
def mapBatchOps (defaultProject : String) :
    Nat → List BatchOp → Except String (List BatchEntry)
  | _, [] => Except.ok []
  | idx, op :: rest =>
    match mapBatchOp defaultProject idx op with
    | Except.error e => Except.error e
    | Except.ok entry =>
      match mapBatchOps defaultProject (idx + 1) rest with
      | Except.error e => Except.error e
      | Except.ok entries => Except.ok (entry :: entries)

/-- `batch_update_work_items` (part_000, lines 977-1051) up to the composite
`$batch` request: the argument check, then the per-operation mapping; an
error aborts before any request body exists. -/
def batchUpdateHandler (defaultProject : String)
    (operations : Option (List BatchOp)) :
    Except String (List BatchEntry) :=
  match operations with
  | none => Except.error "缺少或無效的參數: operations (必須是非空數組)"
  | some ops =>
    if ops.length = 0 then
      Except.error "缺少或無效的參數: operations (必須是非空數組)"
    else
      mapBatchOps defaultProject 0 ops

/-- An operation entry the mapper rejects: a PATCH or DELETE without a
(truthy) workItemId, a POST without a (truthy) workItemType, or any other
method. -/
def opMalformed (op : BatchOp) : Bool :=
  if op.method = some "PATCH" then numFalsy op.workItemId
  else if op.method = some "POST" then strFalsy op.workItemType
  else if op.method = some "DELETE" then numFalsy op.workItemId
  else true

/-- The positional rejection message of a malformed entry. -/
def opErrorMessage (idx : Nat) (op : BatchOp) : String :=
  if op.method = some "PATCH" then
    "操作 " ++ toString idx ++ ": PATCH 方法需要 workItemId"
  else if op.method = some "POST" then
    "操作 " ++ toString idx ++ ": POST 方法需要 workItemType"
  else if op.method = some "DELETE" then
    "操作 " ++ toString idx ++ ": DELETE 方法需要 workItemId"
  else
    "操作 " ++ toString idx ++ ": 不支援的方法 " ++ methodText op.method

/-! ## Theorems -/

/-- Splitting a `drop` at a chunk boundary: the next `k` elements followed by
the rest reassemble the suffix. -/
theorem take_drop_append_drop (m k : Nat) (l : List Nat) :
    (l.take (m + k)).drop m ++ l.drop (m + k) = l.drop m := by
  induction m generalizing l with
  | zero => simp
  | succ m ih =>
    cases l with
    | nil => simp
    | cons a l =>
      have h1 : m + 1 + k = (m + k) + 1 := by omega
      simp [h1, ih]

/-- Shifting an integer ceiling division by one step of the divisor. -/
theorem ediv_add_self (a cs : Int) (hcs : 0 < cs) :
    (a + cs) / cs = a / cs + 1 := by
  have h := Int.add_mul_ediv_right a 1 (ne_of_gt hcs)
  simpa using h

/-- The chunk loop returns immediately once `start < fileSize` fails,
whatever the fuel. -/
theorem chunkLoopAux_stop (fileBuffer : List Nat) (chunkSize : Int)
    (fuel : Nat) (start : Int) (h : ¬ start < (fileBuffer.length : Int)) :
    chunkLoopAux fileBuffer chunkSize fuel start = some [] := by
  cases fuel <;> simp [chunkLoopAux, h]

/-- Main invariant of the chunk loop: with positive `chunkSize` and fuel at
least the number of remaining iterations, the loop from `start` terminates
and its chunks tile the suffix `fileBuffer.drop start` exactly: their
payloads concatenate to the suffix, the first chunk starts at `start`, each
chunk starts right after the previous one ends, chunk lengths are positive
and at most `chunkSize`, headers are well-formed, the last chunk ends at
`length - 1`, and there are exactly `⌈(length - start) / chunkSize⌉`
chunks. -/
theorem chunkLoopAux_spec (fileBuffer : List Nat) (chunkSize : Int)
    (hcs : 0 < chunkSize) :
    ∀ fuel : Nat, ∀ start : Int, 0 ≤ start →
      (if start < (fileBuffer.length : Int)
        then ((fileBuffer.length : Int) - start + chunkSize - 1) / chunkSize
        else 0) ≤ (fuel : Int) →
      ∃ chunks, chunkLoopAux fileBuffer chunkSize fuel start = some chunks ∧
        (chunks.map ChunkRequest.bytes).flatten = fileBuffer.drop start.toNat ∧
        (start < (fileBuffer.length : Int) →
          chunks.head?.map ChunkRequest.start = some start) ∧
        List.Chain' (fun a b => b.start = a.endIdx + 1) chunks ∧
        (∀ c ∈ chunks, start ≤ c.start ∧ c.start ≤ c.endIdx ∧
          c.endIdx + 1 - c.start ≤ chunkSize ∧
          c.contentRange = contentRangeHeader c.start c.endIdx
            fileBuffer.length) ∧
        (start < (fileBuffer.length : Int) →
          chunks.getLast?.map ChunkRequest.endIdx =
            some ((fileBuffer.length : Int) - 1)) ∧
        (¬ start < (fileBuffer.length : Int) → chunks = []) ∧
        (chunks.length : Int) =
          (if start < (fileBuffer.length : Int)
            then ((fileBuffer.length : Int) - start + chunkSize - 1) / chunkSize
            else 0) := by
  intro fuel
  induction fuel with
  | zero =>
    intro start hs hfuel
    have hstop : ¬ start < (fileBuffer.length : Int) := by
      by_contra hlt
      rw [if_pos hlt] at hfuel
      have hrw : (fileBuffer.length : Int) - start + chunkSize - 1 =
          ((fileBuffer.length : Int) - start - 1) + chunkSize := by ring
      rw [hrw, ediv_add_self _ _ hcs] at hfuel
      have hnn : 0 ≤ ((fileBuffer.length : Int) - start - 1) / chunkSize :=
        Int.ediv_nonneg (by omega) (le_of_lt hcs)
      simp only [Nat.cast_zero] at hfuel
      omega
    refine ⟨[], chunkLoopAux_stop _ _ _ _ hstop, ?_, ?_, ?_, ?_, ?_, ?_, ?_⟩
    · have : fileBuffer.length ≤ start.toNat := by omega
      simp [List.drop_eq_nil_of_le this]
    · intro h; exact absurd h hstop
    · simp
    · simp
    · intro h; exact absurd h hstop
    · intro _; rfl
    · simp [if_neg hstop]
  | succ f ih =>
    intro start hs hfuel
    by_cases hlt : start < (fileBuffer.length : Int)
    · -- one loop iteration
      have hrw : (fileBuffer.length : Int) - start + chunkSize - 1 =
          ((fileBuffer.length : Int) - start - 1) + chunkSize := by ring
      have hceil : ((fileBuffer.length : Int) - start + chunkSize - 1) /
          chunkSize =
          ((fileBuffer.length : Int) - start - 1) / chunkSize + 1 := by
        rw [hrw, ediv_add_self _ _ hcs]
      have hfuel2 :
          (if start + chunkSize < (fileBuffer.length : Int)
            then ((fileBuffer.length : Int) - (start + chunkSize) + chunkSize
              - 1) / chunkSize
            else 0) ≤ (f : Int) := by
        rw [if_pos hlt, hceil] at hfuel
        by_cases h2 : start + chunkSize < (fileBuffer.length : Int)
        · rw [if_pos h2]
          have harg : (fileBuffer.length : Int) - (start + chunkSize) +
              chunkSize - 1 = (fileBuffer.length : Int) - start - 1 := by
            ring
          rw [harg]
          push_cast at hfuel ⊢
          omega
        · rw [if_neg h2]
          push_cast at hfuel ⊢
          have : 0 ≤ ((fileBuffer.length : Int) - start - 1) / chunkSize :=
            Int.ediv_nonneg (by omega) (le_of_lt hcs)
          omega
      obtain ⟨chunks2, heq2, hflat2, hhead2, hchain2, hall2, hlast2, hnil2,
        hlen2⟩ := ih (start + chunkSize) (by omega) hfuel2
      set endIdx : Int :=
        min (start + chunkSize) (fileBuffer.length : Int) - 1 with hendIdx
      set c0 : ChunkRequest :=
        ⟨start, endIdx, bufSlice fileBuffer start (endIdx + 1),
          contentRangeHeader start endIdx fileBuffer.length⟩ with hc0
      have heq : chunkLoopAux fileBuffer chunkSize (f + 1) start =
          some (c0 :: chunks2) := by
        rw [chunkLoopAux]
        simp only [if_pos hlt, heq2]
        rfl
      refine ⟨c0 :: chunks2, heq, ?_, ?_, ?_, ?_, ?_, ?_, ?_⟩
      · -- flatten
        by_cases h2 : start + chunkSize < (fileBuffer.length : Int)
        · have hmin : endIdx + 1 = start + chunkSize := by
            simp only [hendIdx]; omega
          have htoNat : (start + chunkSize).toNat =
              start.toNat + chunkSize.toNat := by omega
          simp only [List.map_cons, List.flatten_cons, hc0, bufSlice, hmin,
            hflat2, htoNat]
          exact take_drop_append_drop start.toNat chunkSize.toNat fileBuffer
        · have hmin : endIdx + 1 = (fileBuffer.length : Int) := by
            simp only [hendIdx]; omega
          have h0 : chunks2 = [] := hnil2 h2
          have htoNat : ((fileBuffer.length : Int)).toNat =
              fileBuffer.length := by omega
          simp only [List.map_cons, List.flatten_cons, hc0, bufSlice, hmin,
            h0, List.map_nil, List.flatten_nil, List.append_nil, htoNat,
            List.take_length]
      · intro _; rfl
      · -- chain
        rw [List.chain'_cons']
        refine ⟨?_, hchain2⟩
        intro b hb
        by_cases h2 : start + chunkSize < (fileBuffer.length : Int)
        · have := hhead2 h2
          have hb2 : b.start = start + chunkSize := by
            rcases hhb : chunks2.head? with _ | b2
            · rw [hhb] at hb; cases hb
            · rw [hhb] at hb this
              cases hb
              simpa using this
          simp only [hc0, hb2, hendIdx]
          omega
        · rw [hnil2 h2] at hb; cases hb
      · -- bounds and headers
        intro c hc
        rcases List.mem_cons.mp hc with hc | hc
        · subst hc
          refine ⟨le_rfl, ?_, ?_, rfl⟩
          · simp only [hendIdx]; omega
          · simp only [hendIdx]; omega
        · obtain ⟨ha, hb, hcl, hdr⟩ := hall2 c hc
          exact ⟨by omega, hb, hcl, hdr⟩
      · -- last chunk
        intro _
        by_cases h2 : start + chunkSize < (fileBuffer.length : Int)
        · have hlast := hlast2 h2
          rcases hch : chunks2 with _ | ⟨b, t⟩
          · rw [hch] at hnil2 hhead2
            have := hhead2 h2
            simp at this
          · rw [hch] at hlast
            rw [List.getLast?_cons_cons, hlast]
        · have h0 : chunks2 = [] := hnil2 h2
          have hmin : endIdx = (fileBuffer.length : Int) - 1 := by
            simp only [hendIdx]; omega
          simp [h0, hc0, hmin]
      · intro h; exact absurd hlt h
      · -- length
        rw [if_pos hlt, hceil]
        by_cases h2 : start + chunkSize < (fileBuffer.length : Int)
        · rw [if_pos h2] at hlen2
          have : (fileBuffer.length : Int) - (start + chunkSize) + chunkSize
              - 1 = (fileBuffer.length : Int) - start - 1 := by ring
          rw [this] at hlen2
          simp only [List.length_cons]
          push_cast
          omega
        · rw [if_neg h2] at hlen2
          have h0 : ((fileBuffer.length : Int) - start - 1) / chunkSize = 0 :=
            Int.ediv_eq_zero_of_lt (by omega) (by omega)
          simp only [List.length_cons]
          push_cast
          omega
    · refine ⟨[], chunkLoopAux_stop _ _ _ _ hlt, ?_, ?_, ?_, ?_, ?_, ?_, ?_⟩
      · have : fileBuffer.length ≤ start.toNat := by omega
        simp [List.drop_eq_nil_of_le this]
      · intro h; exact absurd h hlt
      · simp
      · simp
      · intro h; exact absurd h hlt
      · intro _; rfl
      · simp [if_neg hlt]

/-- With a non-positive `chunkSize`, `start` never reaches `fileSize`, so the
chunk loop consumes any amount of fuel without finishing. -/
theorem chunkLoopAux_none_of_nonpos (fileBuffer : List Nat) (chunkSize : Int)
    (hcs : chunkSize ≤ 0) (hlen : 0 < (fileBuffer.length : Int)) :
    ∀ fuel : Nat, ∀ start : Int, start ≤ 0 →
      chunkLoopAux fileBuffer chunkSize fuel start = none := by
  intro fuel
  induction fuel with
  | zero =>
    intro start hs
    have hlt : start < (fileBuffer.length : Int) := by omega
    simp [chunkLoopAux, if_pos hlt]
  | succ f ih =>
    intro start hs
    have hlt : start < (fileBuffer.length : Int) := by
      omega
    rw [chunkLoopAux]
    simp only [if_pos hlt]
    rw [ih (start + chunkSize) (by omega)]
    rfl

/-- C1: for every byte buffer longer than the (non-negative) chunk threshold
and every positive chunkSize, the chunked-upload sequencer of
`upload_work_item_attachment` partitions the buffer into consecutive byte
ranges issued in ascending order, each of length at most chunkSize, covering
`[0, length)` with no gaps and no overlaps (their payloads concatenate back
to the buffer); the last chunk's end index is `length - 1` and each chunk
request carries the `bytes <start>-<end>/<total>` Content-Range header. -/
theorem upload_chunk_partition (fileBuffer : List Nat)
    (chunkSize chunkThreshold : Int) (hcs : 0 < chunkSize)
    (hth : 0 ≤ chunkThreshold)
    (hbig : chunkThreshold < (fileBuffer.length : Int)) :
    ChunkedUploadCorrect fileBuffer chunkSize chunkThreshold := by
  have hlen : (0 : Int) < (fileBuffer.length : Int) := by omega
  have hfuel : (if (0 : Int) < (fileBuffer.length : Int)
      then ((fileBuffer.length : Int) - 0 + chunkSize - 1) / chunkSize
      else 0) ≤ ((fileBuffer.length : Nat) : Int) := by
    rw [if_pos hlen]
    have hb : (fileBuffer.length : Int) - 0 + chunkSize - 1 ≤
        (fileBuffer.length : Int) * chunkSize := by
      nlinarith [mul_nonneg
        (by omega : (0 : Int) ≤ (fileBuffer.length : Int) - 1)
        (by omega : (0 : Int) ≤ chunkSize - 1)]
    have hd := Int.ediv_le_ediv hcs hb
    rwa [Int.mul_ediv_cancel _ (ne_of_gt hcs)] at hd
  obtain ⟨chunks, h1, h2, h3, h4, h5, h6, _, _⟩ :=
    chunkLoopAux_spec fileBuffer chunkSize hcs fileBuffer.length 0 le_rfl
      hfuel
  have hnot : ¬ (fileBuffer.length : Int) ≤ chunkThreshold := by omega
  refine ⟨fileBuffer.length, chunks, h1, ?_, ?_, h3 hlen, h4, h5, h6 hlen⟩
  · simp only [uploadAttachmentRequests, if_neg hnot, h1]
    rfl
  · simpa using h2

/-- C2: for every byte buffer whose length is at most the chunk threshold,
`upload_work_item_attachment` issues exactly one upload request carrying the
entire buffer, and never issues an initiate request or any chunk request. -/
theorem upload_small_single_request (fileBuffer : List Nat)
    (chunkSize chunkThreshold : Int) (fuel : Nat)
    (h : (fileBuffer.length : Int) ≤ chunkThreshold) :
    SingleUploadOnly fileBuffer chunkSize chunkThreshold fuel := by
  have heq : uploadAttachmentRequests fileBuffer chunkSize chunkThreshold
      fuel = some [UploadRequest.simple fileBuffer] := by
    simp [uploadAttachmentRequests, if_pos h]
  refine ⟨heq, ?_⟩
  intro reqs hreqs
  rw [heq, Option.some_inj] at hreqs
  subst hreqs
  refine ⟨rfl, by simp, ?_⟩
  intro b r
  simp

/-- Witness for C2 at a concrete input. -/
theorem upload_small_single_request_witness :
    (([1, 2, 3] : List Nat).length : Int) ≤ 100 ∧
      SingleUploadOnly [1, 2, 3] 4 100 7 :=
  ⟨by decide, upload_small_single_request [1, 2, 3] 4 100 7 (by decide)⟩

/-- Witness for C1 at a concrete input. -/
theorem upload_chunk_partition_witness :
    (0 : Int) < 2 ∧ (0 : Int) ≤ 3 ∧
      (3 : Int) < (([1, 2, 3, 4, 5] : List Nat).length : Int) ∧
      ChunkedUploadCorrect [1, 2, 3, 4, 5] 2 3 :=
  ⟨by decide, by decide, by decide,
    upload_chunk_partition [1, 2, 3, 4, 5] 2 3 (by decide) (by decide)
      (by decide)⟩

/-- C9: the chunk loop of `upload_work_item_attachment` terminates only under
the unvalidated precondition `chunkSize > 0` — in that case after exactly
`⌈length / chunkSize⌉` iterations — while for any `chunkSize ≤ 0` and any
buffer larger than the threshold the loop (and hence the chunked upload
path) never finishes, whatever fuel it is given. -/
theorem chunk_loop_termination (fileBuffer : List Nat)
    (chunkSize chunkThreshold : Int) (hth : 0 ≤ chunkThreshold)
    (hbig : chunkThreshold < (fileBuffer.length : Int)) :
    (chunkSize ≤ 0 → ChunkLoopDiverges fileBuffer chunkSize chunkThreshold) ∧
    (0 < chunkSize → ChunkLoopTerminates fileBuffer chunkSize) := by
  constructor
  · intro hcs fuel
    have hnone := chunkLoopAux_none_of_nonpos fileBuffer chunkSize hcs
      (by omega) fuel 0 le_rfl
    refine ⟨hnone, ?_⟩
    have hnot : ¬ (fileBuffer.length : Int) ≤ chunkThreshold := by omega
    simp [uploadAttachmentRequests, if_neg hnot, hnone]
  · intro hcs
    have hlen : (0 : Int) < (fileBuffer.length : Int) := by omega
    have hnn : 0 ≤ ((fileBuffer.length : Int) + chunkSize - 1) / chunkSize :=
      Int.ediv_nonneg (by omega) (le_of_lt hcs)
    obtain ⟨chunks, h1, _, _, _, _, _, _, h8⟩ :=
      chunkLoopAux_spec fileBuffer chunkSize hcs
        ((((fileBuffer.length : Int) + chunkSize - 1) / chunkSize).toNat) 0
        le_rfl
        (by rw [if_pos hlen, Int.toNat_of_nonneg hnn]; simp)
    refine ⟨chunks, h1, ?_⟩
    rw [h8, if_pos hlen]
    norm_num

/-- Witness for C9 at a concrete input (chunkSize 0). -/
theorem chunk_loop_termination_witness :
    (0 : Int) ≤ 1 ∧ (1 : Int) < (([7, 7, 7] : List Nat).length : Int) ∧
      (((0 : Int) ≤ 0 → ChunkLoopDiverges [7, 7, 7] 0 1) ∧
        ((0 : Int) < 0 → ChunkLoopTerminates [7, 7, 7] 0)) :=
  ⟨by decide, by decide,
    chunk_loop_termination [7, 7, 7] 0 1 (by decide) (by decide)⟩

/-- C3 (code-bug exhibit): `"!!!!"` is not valid Base64 — none of its
characters is in the Base64 alphabet — yet `upload_work_item_attachment`
does not fail with the invalid-argument error: the Node decode is total, so
the handler proceeds past the dead `catch` branch and issues the upload
request (here the simple upload of the empty decoded buffer). -/
theorem upload_invalid_base64_not_rejected :
    (∀ c ∈ "!!!!".data, base64Index c = none) ∧
    uploadAttachmentHandler (some 1) "a.txt" "!!!!" (4 * 1024 * 1024)
      (100 * 1024 * 1024) 1 = Except.ok [UploadRequest.simple []] := by
  constructor
  · decide
  · rfl

/-- C8: resolving the default project name is memoized: a first call with an
empty memo fetches the project list once, returns the first project's name
and caches it, and any later call returns that cached name with zero
fetches, whatever the remote would answer then. -/
theorem getProjectName_memoized (p0 : String) (rest : List ProjInfo)
    (remote2 : Option (List ProjInfo)) (hne : p0 ≠ "") :
    getProjectNameOnce (some (⟨some p0⟩ :: rest)) none =
      (Except.ok p0, some p0, 1) ∧
    getProjectNameOnce remote2 (some p0) = (Except.ok p0, some p0, 0) := by
  constructor
  · simp [getProjectNameOnce, strFalsy, hne]
  · simp [getProjectNameOnce, strFalsy, hne]

/-- Witness for C8 at a concrete input; the second call is served from the
memo even though the remote would now fail. -/
theorem getProjectName_memoized_witness :
    "Alpha" ≠ "" ∧
    (getProjectNameOnce (some [⟨some "Alpha"⟩]) none =
        (Except.ok "Alpha", some "Alpha", 1) ∧
      getProjectNameOnce none (some "Alpha") =
        (Except.ok "Alpha", some "Alpha", 0)) :=
  ⟨by decide, getProjectName_memoized "Alpha" [] none (by decide)⟩

/-- C10: an `update_work_item` call whose updates carry a truthy
`System.AssignedTo` value that fails the email pattern is rejected with the
invalid-params error before any network request. -/
theorem update_assignedTo_email_guard (id : Int)
    (updates : List (String × String)) (comment : Option String)
    (v : String) (hlook : updates.lookup "System.AssignedTo" = some v)
    (hv : v ≠ "") (hre : emailRegexTest v = false) :
    updateWorkItemHandler (some id) updates comment =
      Except.error "System.AssignedTo 必須為有效的 email 格式。" := by
  have hne : updates.length ≠ 0 := by
    intro h
    rw [List.length_eq_zero] at h
    subst h
    simp [List.lookup] at hlook
  unfold updateWorkItemHandler
  rw [if_neg (by simp [hne]), if_pos ?_]
  refine ⟨?_, ?_⟩
  · rw [hlook]
    simpa using hv
  · rw [hlook]
    simpa using hre

/-- Witness for C10: a display name (with a space, without `@`) is
rejected. -/
theorem update_assignedTo_email_guard_witness :
    ([("System.AssignedTo", "Wang Xiaoming")].lookup "System.AssignedTo" =
        some "Wang Xiaoming") ∧
    "Wang Xiaoming" ≠ "" ∧ emailRegexTest "Wang Xiaoming" = false ∧
    updateWorkItemHandler (some 1)
        [("System.AssignedTo", "Wang Xiaoming")] none =
      Except.error "System.AssignedTo 必須為有效的 email 格式。" :=
  ⟨by decide, by decide, by decide,
    update_assignedTo_email_guard 1
      [("System.AssignedTo", "Wang Xiaoming")] none "Wang Xiaoming"
      (by decide) (by decide) (by decide)⟩

/-- C4 counterexample: with a `createdAfter` value containing a single
quote, the composed conditions embed the raw value — its quote is not
doubled — so not every supplied filter value is escaped before
interpolation. -/
theorem search_createdAfter_unescaped :
    buildConditions { createdAfter := some ("2024" ++ squoteS ++ "x") }
        "P" =
      ["[System.TeamProject] = " ++ quoteWrap "P",
        "[System.CreatedDate] >= " ++
          quoteWrap ("2024" ++ squoteS ++ "x")] ∧
    escapeQuotes ("2024" ++ squoteS ++ "x") ≠ "2024" ++ squoteS ++ "x" ∧
    "[System.CreatedDate] >= " ++ quoteWrap ("2024" ++ squoteS ++ "x") ≠
      "[System.CreatedDate] >= " ++
        quoteWrap (escapeQuotes ("2024" ++ squoteS ++ "x")) := by
  refine ⟨?_, ?_, ?_⟩ <;> decide

/-- C4 amended: every supplied value of the six non-date filters is
interpolated only after quote doubling, while the two date filters
(`createdAfter`, `updatedAfter`) are interpolated verbatim. -/
theorem search_escaping_amended (a : SearchArgs) (d : String) :
    EscapingAmended a d := by
  refine ⟨?_, ?_, ?_, ?_, ?_, ?_, ?_, ?_⟩
  · simp [buildConditions]
  · intro t ht hne
    simp [buildConditions, optCondition, ht, hne]
  · intro s hs hne
    simp [buildConditions, optCondition, hs, hne]
  · intro s hs hne
    simp [buildConditions, optCondition, hs, hne]
  · intro tg htg hne hlen
    simp [buildConditions, optCondition, htg, hne, hlen]
  · intro v hv hne
    simp [buildConditions, optCondition, hv, hne]
  · intro v hv hne
    simp [buildConditions, optCondition, hv, hne]
  · intro q hq hne
    simp [buildConditions, optCondition, hq, hne]

/-- Witness for the amended C4 at a concrete argument record. -/
theorem search_escaping_amended_witness :
    EscapingAmended
      { workItemType := some "Bug", createdAfter := some "2024-01-01" }
      "P" :=
  search_escaping_amended _ _

/-- C5: a tags argument with at least one non-empty trimmed segment yields
exactly one tag predicate — the parenthesized disjunction of one CONTAINS
clause per parsed tag — and a tags argument whose segments are all empty
adds no tag predicate (the conditions equal those of the same call without
tags). -/
theorem search_tag_disjunction (a : SearchArgs) (d tg : String)
    (htg : a.tags = some tg) (hne : tg ≠ "") :
    TagDisjunction a d tg := by
  constructor
  · intro hlen
    have hpos : (parseTags tg).length > 0 := hlen
    constructor
    · simp [buildConditions, htg, hne, hpos]
    · simp
  · intro hnil
    simp [buildConditions, optCondition, htg, hne, hnil]

/-- Witness for C5: two tags produce a two-clause disjunction, and an
all-empty tag list produces no tag predicate. -/
theorem search_tag_disjunction_witness :
    ({ tags := some "ui; backend" } : SearchArgs).tags =
        some "ui; backend" ∧
    "ui; backend" ≠ "" ∧
    TagDisjunction { tags := some "ui; backend" } "P" "ui; backend" :=
  ⟨rfl, by decide,
    search_tag_disjunction { tags := some "ui; backend" } "P" "ui; backend"
      rfl (by decide)⟩

/-- C6: an ids list of exactly 200 entries passes validation and yields the
batch request body, while a list of 201 or more, an empty list, or a
non-array value is rejected with an invalid-argument error before any
network request. -/
theorem batch_get_ids_boundary (l : List Int)
    (fields : Option (List String)) (asOf expand : Option String) :
    IdsBoundary l fields asOf expand := by
  refine ⟨?_, ?_, ?_, ?_⟩
  · intro h200
    refine ⟨⟨l, fields, if strFalsy asOf then none else asOf,
      if strFalsy expand then none else expand⟩, ?_, rfl⟩
    have h1 : ¬ l.length = 0 := by omega
    have h2 : ¬ l.length > 200 := by omega
    simp [getWorkItemsBatchHandler, h1, h2]
  · intro h201
    have h1 : ¬ l.length = 0 := by omega
    have h2 : l.length > 200 := by omega
    simp [getWorkItemsBatchHandler, h1, h2]
  · simp [getWorkItemsBatchHandler]
  · rfl

/-- Witness for C6 at the boundary list of length 200. -/
theorem batch_get_ids_boundary_witness :
    IdsBoundary (List.replicate 200 (1 : Int)) none none none :=
  batch_get_ids_boundary _ _ _ _

/-- A malformed operation maps to its positional error message. -/
theorem mapBatchOp_error (d : String) (idx : Nat) (op : BatchOp)
    (h : opMalformed op = true) :
    mapBatchOp d idx op = Except.error (opErrorMessage idx op) := by
  unfold mapBatchOp opErrorMessage
  unfold opMalformed at h
  split_ifs at h ⊢ <;> simp_all

/-- A well-formed operation maps to some inner request. -/
theorem mapBatchOp_ok (d : String) (idx : Nat) (op : BatchOp)
    (h : opMalformed op = false) :
    ∃ e, mapBatchOp d idx op = Except.ok e := by
  unfold mapBatchOp
  unfold opMalformed at h
  split_ifs at h ⊢ <;> first | exact ⟨_, rfl⟩ | simp_all

/-- The indexed operation mapping reports the first malformed entry, its
position offset by the index base. -/
theorem mapBatchOps_first_error (d : String) :
    ∀ (ops : List BatchOp) (base i : Nat) (hi : i < ops.length),
      opMalformed (ops.get ⟨i, hi⟩) = true →
      (∀ j (hj : j < ops.length), j < i →
        opMalformed (ops.get ⟨j, hj⟩) = false) →
      mapBatchOps d base ops =
        Except.error (opErrorMessage (base + i) (ops.get ⟨i, hi⟩)) := by
  intro ops
  induction ops with
  | nil =>
    intro base i hi
    exact absurd hi (by simp)
  | cons op rest ih =>
    intro base i hi hbad hgood
    cases i with
    | zero =>
      have h0 : opMalformed op = true := hbad
      unfold mapBatchOps
      rw [mapBatchOp_error d base op h0]
      simp
    | succ i =>
      have hop : opMalformed op = false := by
        have h := hgood 0 (by simp only [List.length_cons]; omega)
          (by omega)
        simpa using h
      obtain ⟨e, he⟩ := mapBatchOp_ok d base op hop
      have hi2 : i < rest.length := by
        simp only [List.length_cons] at hi
        omega
      have hrec := ih (base + 1) i hi2 hbad ?_
      · unfold mapBatchOps
        rw [he, hrec]
        have harith : base + 1 + i = base + (i + 1) := by omega
        rw [harith]
        simp
      · intro j hj hji
        exact hgood (j + 1) (by simp only [List.length_cons]; omega)
          (by omega)

/-- Every rejection message opens with its entry's position:
`操作 <index>: `. -/
theorem opErrorMessage_positional (idx : Nat) (op : BatchOp) :
    ∃ s, opErrorMessage idx op =
      "操作 " ++ toString idx ++ ": " ++ s := by
  unfold opErrorMessage
  split_ifs
  · exact ⟨"PATCH 方法需要 workItemId",
      by simp only [String.append_assoc]; congr 1⟩
  · exact ⟨"POST 方法需要 workItemType",
      by simp only [String.append_assoc]; congr 1⟩
  · exact ⟨"DELETE 方法需要 workItemId",
      by simp only [String.append_assoc]; congr 1⟩
  · exact ⟨"不支援的方法 " ++ methodText op.method,
      by simp only [String.append_assoc]; congr 1⟩

/-- C7: a `batch_update_work_items` call containing a malformed operation
(PATCH/DELETE without workItemId, POST without workItemType, or an
unsupported method) fails before the composite request is built, with the
positional `操作 <index>: ...` error message of the first malformed
entry. -/
theorem batch_update_first_malformed (d : String) (ops : List BatchOp)
    (i : Nat) (hi : i < ops.length)
    (hbad : opMalformed (ops.get ⟨i, hi⟩) = true)
    (hgood : ∀ j (hj : j < ops.length), j < i →
      opMalformed (ops.get ⟨j, hj⟩) = false) :
    batchUpdateHandler d (some ops) =
      Except.error (opErrorMessage i (ops.get ⟨i, hi⟩)) ∧
    ∃ s, opErrorMessage i (ops.get ⟨i, hi⟩) =
      "操作 " ++ toString i ++ ": " ++ s := by
  refine ⟨?_, opErrorMessage_positional i (ops.get ⟨i, hi⟩)⟩
  have hne : ¬ ops.length = 0 := by omega
  simp only [batchUpdateHandler]
  rw [if_neg hne]
  have h := mapBatchOps_first_error d ops 0 i hi hbad hgood
  simpa using h

/-- Witness for C7: the spec's scenario — a lone PATCH entry without
workItemId is rejected citing operation index 0, with the exact message. -/
theorem batch_update_first_malformed_witness :
    opMalformed { method := some "PATCH" } = true ∧
    batchUpdateHandler "P" (some [{ method := some "PATCH" }]) =
      Except.error "操作 0: PATCH 方法需要 workItemId" := by
  refine ⟨by decide, ?_⟩
  have h := batch_update_first_malformed "P" [{ method := some "PATCH" }] 0
    (by decide) (by decide) (fun j hj hji => absurd hji (by omega))
  rw [h.1]
  rfl

end AzdoMcp
